import Mathlib

/-!
Verification of the outyet polling server (src/outyet.go).

The embedding models the core of the program:
* the expvar counters (`hitCount`, `pollCount`, `pollError`, `pollErrorCount`)
  as a `Counters` record,
* `isTagged` as a function consuming the outcome of one `http.Head` call
  (a `HeadResult`: either a transport error with its message, or a response
  with a status code) together with the counter state,
* the `Server` struct and `NewServer`,
* the `poll` loop as a fuel-bounded recursion over an oracle
  `o : Nat → HeadResult` giving the result of the i-th HEAD call, producing
  the final state and a trace of events (probe, sleep with its duration,
  setting `yes`, calling `pollDone`),
* `ServeHTTP` as a step incrementing `hitCount` and reading the template data,
* interleaved executions as lists of operations (`Op`) folded over a system
  state, used for the monotonicity and read-visibility claims,
* `main`'s iphost flag re-registration and change-URL construction.

The mutex (`sync.RWMutex`) only serialises accesses; the embedding's
sequential interleaving semantics is that serialisation made explicit.
-/

namespace Outyet

/-- `http.StatusOK` from Go's net/http. -/
def statusOK : Nat := 200

/-- The four expvar counters of the program:
`hitCount`, `pollCount`, `pollError` (an expvar.String), `pollErrorCount`.
All start at zero / empty at process start. -/
structure Counters where
  hitCount : Nat
  pollCount : Nat
  pollError : String
  pollErrorCount : Nat
deriving DecidableEq, Repr

/-- The counters at process start: expvar Ints start at 0, the String empty. -/
def czero : Counters := ⟨0, 0, "", 0⟩

/-- The outcome of one `http.Head(url)` call: a transport error with its
message (`err != nil` branch), or a response carrying a status code. -/
inductive HeadResult where
  | err (msg : String)
  | ok (statusCode : Nat)
deriving DecidableEq, Repr

/-- `isTagged` from src/outyet.go lines 119-129: increments `pollCount`,
and on a transport error logs it, stores the message in `pollError`,
increments `pollErrorCount` and returns false; otherwise returns whether
the status code is 200 OK. The `HeadResult` argument is the outcome of the
single `http.Head` call the function makes. -/
def isTagged (r : HeadResult) (c : Counters) : Bool × Counters :=
  let c1 : Counters := { c with pollCount := c.pollCount + 1 }
  match r with
  | .err msg =>
      (false, { c1 with pollError := msg, pollErrorCount := c1.pollErrorCount + 1 })
  | .ok status => (status == statusOK, c1)

/-- The boolean `isTagged` returns for a given HEAD outcome
(independent of the counter state). -/
def probeSuccess (r : HeadResult) : Bool :=
  match r with
  | .err _ => false
  | .ok status => status == statusOK

/-- The `Server` struct: version, url, period (a `time.Duration`, i.e. an
int64 nanosecond count, embedded as `Int`) and the mutex-protected `yes`. -/
structure Server where
  version : String
  url : String
  period : Int
  yes : Bool
deriving DecidableEq, Repr

/-- `NewServer`: initialises the struct; Go's zero value gives `yes = false`.
(The `go s.poll()` side effect is modelled by running `poll` /
`pollStepsFrom` on the resulting state.) -/
def NewServer (version url : String) (period : Int) : Server :=
  { version := version, url := url, period := period, yes := false }

/-- The thread-safe read of the confirmed state (the spec's `isConfirmed()`;
in the code, the RLock-protected read of `s.yes`). -/
def isConfirmed (s : Server) : Bool := s.yes

/-- Events of a `poll` execution: a call to `isTagged` (one HEAD probe),
a call to `pollSleep` with the duration passed to it, the write `s.yes = true`,
and the `pollDone()` completion-hook call. -/
inductive Ev where
  | probe
  | sleep (d : Int)
  | setYes
  | done
deriving DecidableEq, Repr

/-- `Server.poll` (src/outyet.go lines 101-109), fuel-bounded:
`for !isTagged(s.url) { pollSleep(s.period) }; s.yes = true; pollDone()`.
`o i` is the outcome of the i-th `http.Head` call; `i` is the index of the
next call. Returns the final server, the final counters and the event trace,
or `none` if the loop does not finish within `fuel` iterations.
Note the code passes `s.period` to `pollSleep` unchanged. -/
def poll (o : Nat → HeadResult) (s : Server) (c : Counters) (i fuel : Nat) :
    Option (Server × Counters × List Ev) :=
  match fuel with
  | 0 => none
  | fuel + 1 =>
    let r := isTagged (o i) c
    if r.1 then
      some ({ s with yes := true }, r.2, [Ev.probe, Ev.setYes, Ev.done])
    else
      match poll o s r.2 (i + 1) fuel with
      | none => none
      | some (s2, c2, t) => some (s2, c2, Ev.probe :: Ev.sleep s.period :: t)

/-- The trace `poll` produces when the first `n` probes fail and probe `n`
succeeds: `n+1` probes, a sleep of duration `p` between consecutive probes,
then the `yes` write and the `pollDone` call. -/
def expectedTrace : Nat → Int → List Ev
  | 0, _ => [Ev.probe, Ev.setYes, Ev.done]
  | n + 1, p => Ev.probe :: Ev.sleep p :: expectedTrace n p

/-- Whole-process state: the server struct plus the global expvar counters. -/
structure SysState where
  server : Server
  counters : Counters
deriving DecidableEq, Repr

/-- One iteration of the `poll` loop body as a state step: run `isTagged`
on the given HEAD outcome; on success perform the locked write
`s.yes = true`, otherwise leave the server unchanged. -/
def pollIter (r : HeadResult) (st : SysState) : SysState :=
  let res := isTagged r st.counters
  if res.1 then { server := { st.server with yes := true }, counters := res.2 }
  else { st with counters := res.2 }

/-- The anonymous struct `ServeHTTP` fills from the server under `RLock`
and hands to the template. -/
structure RenderData where
  URL : String
  Version : String
  Yes : Bool
deriving DecidableEq, Repr

/-- `Server.ServeHTTP` (src/outyet.go lines 132-149) as a state step:
increments `hitCount`, then reads `url`, `version` and `yes` under the
read lock into the template data. -/
def serveHTTPStep (st : SysState) : SysState × RenderData :=
  ({ st with counters := { st.counters with hitCount := st.counters.hitCount + 1 } },
   ⟨st.server.url, st.server.version, st.server.yes⟩)

/-- Operations that touch the shared state: one poll-loop iteration (with
the outcome of its HEAD call) or one HTTP request. The mutex serialises
them; an execution is a list of these. -/
inductive Op where
  | probe (r : HeadResult)
  | serve
deriving DecidableEq, Repr

/-- Apply one operation to the system state. -/
def stepOp (op : Op) (st : SysState) : SysState :=
  match op with
  | .probe r => pollIter r st
  | .serve => (serveHTTPStep st).1

/-- Run a whole interleaved execution. -/
def applyOps (ops : List Op) (st : SysState) : SysState :=
  ops.foldl (fun st op => stepOp op st) st

/-- The `Yes` values observed by the HTTP reads of an execution, in order. -/
def readsOf : List Op → SysState → List Bool
  | [], _ => []
  | .probe r :: ops, st => readsOf ops (pollIter r st)
  | .serve :: ops, st => (serveHTTPStep st).2.Yes :: readsOf ops (serveHTTPStep st).1

/-- The process state right after `NewServer`: fresh server, zero counters. -/
def initSys (v u : String) (p : Int) : SysState := ⟨NewServer v u p, czero⟩

/-- `k` consecutive iterations of the poll loop, the j-th consuming `o (i+j)`
(the prefix of a run that has not yet seen a successful probe). -/
def pollStepsFrom (o : Nat → HeadResult) (st : SysState) (i : Nat) : Nat → SysState
  | 0 => st
  | k + 1 => pollStepsFrom o (pollIter (o i) st) (i + 1) k

/-- Counter evolution over a sequence of `isTagged` calls with the given
HEAD outcomes. -/
def probeMany (rs : List HeadResult) (c : Counters) : Counters :=
  rs.foldl (fun c r => (isTagged r c).2) c

/-- `true` iff no operation of the list is a successful probe: characterises
an execution prefix that precedes the first successful probe. -/
def noSuccessfulProbe (ops : List Op) : Bool :=
  ops.all fun op =>
    match op with
    | .probe r => !probeSuccess r
    | .serve => true

/-- Pointwise order on the numeric counters (`pollError` is a message,
not a counter). -/
def countersLe (a b : Counters) : Prop :=
  a.hitCount ≤ b.hitCount ∧ a.pollCount ≤ b.pollCount ∧
    a.pollErrorCount ≤ b.pollErrorCount

/-- `baseChangeURL` from src/outyet.go line 38. -/
def baseChangeURL : String := "https://go.googlesource.com/go/+/"

/-- The interface-enumeration loop of `main` (src/outyet.go lines 42-64):
`ifaces` is the list of interfaces, each a list of addresses; an address is
`some ip` when it is a `*net.IPNet` or `*net.IPAddr` (whose IP is taken) and
`none` otherwise (skipped by the type switch). `ipcheck` starts as the nil
IP and is overwritten by each matching address, so the result is the last
IP found, or `none` if there was none. -/
def mainIpcheck (ifaces : List (List (Option String))) : Option String :=
  (ifaces.flatten).foldl
    (fun acc a =>
      match a with
      | some ip => some ip
      | none => acc)
    none

/-- The last `some` of a list of optional IPs (reference form used to state
that `mainIpcheck` keeps the last address found). -/
def lastSome : List (Option String) → Option String
  | [] => none
  | a :: l =>
    match lastSome l with
    | some x => some x
    | none => a

/-- `main` (src/outyet.go lines 40-68) after `flag.Parse()`:
`cliIphost` is the `-iphost` value parsed from the command line;
`iphost = flag.String("Ip Host", ipcheck.String(), "IP Host")` then rebinds
the variable to a freshly registered flag whose value is the detected IP
(`"<nil>"` being the `String()` of the nil IP when nothing was found), so
the server's version string and the change URL are built from that instead.
Returns the server handed to `http.Handle`. -/
def mainServer (cliIphost : String) (ifaces : List (List (Option String)))
    (period : Int) : Server :=
  let detected := (mainIpcheck ifaces).getD "<nil>"
  let changeURL := baseChangeURL ++ "go" ++ detected
  NewServer detected changeURL period

/-- Counter evolution along the first `k` HEAD calls of a `poll` run that
starts at call index `i` (the counters `poll` has after those calls). -/
def probeSeq (o : Nat → HeadResult) (c : Counters) (i : Nat) : Nat → Counters
  | 0 => c
  | k + 1 => probeSeq o (isTagged (o i) c).2 (i + 1) k

/-! ### Concrete inputs used by the witnesses -/

def stC1 : SysState :=
  ⟨{ version := "v", url := "u", period := 5, yes := true }, czero⟩

def opsC1 : List Op :=
  [Op.serve, Op.probe (HeadResult.err "x"), Op.serve,
   Op.probe (HeadResult.ok 404), Op.serve, Op.probe (HeadResult.ok 200), Op.serve]

def opsC4pre : List Op :=
  [Op.serve, Op.probe (HeadResult.err "dial tcp: connection refused"),
   Op.serve, Op.probe (HeadResult.ok 404), Op.serve]

def opsC4post : List Op := [Op.probe (HeadResult.ok 200), Op.serve]

/-- A prober failing twice (transport error) then succeeding. -/
def oC2 : Nat → HeadResult :=
  fun i => if i < 2 then HeadResult.err "x" else HeadResult.ok 200

def sC2 : Server := NewServer "v" "u" 7

/-- A prober that always fails with a transport error. -/
def oC5 : Nat → HeadResult := fun _ => HeadResult.err "connection refused"

/-- A prober answering 404 on every call. -/
def oC6 : Nat → HeadResult := fun _ => HeadResult.ok 404

/-- A prober failing once then succeeding. -/
def oC8 : Nat → HeadResult :=
  fun i => if i = 0 then HeadResult.err "refused" else HeadResult.ok 200

/-- A server constructed with period 0. -/
def sC8 : Server := NewServer "v" "u" 0

def oC8w : Nat → HeadResult :=
  fun i => if i = 0 then HeadResult.err "x" else HeadResult.ok 200

def sC8w : Server := NewServer "v" "u" 7

/-! ### Basic facts about `isTagged` and the step functions -/

theorem isTagged_fst (r : HeadResult) (c : Counters) :
    (isTagged r c).1 = probeSuccess r := by
  cases r <;> rfl

theorem isTagged_pollCount (r : HeadResult) (c : Counters) :
    (isTagged r c).2.pollCount = c.pollCount + 1 := by
  cases r <;> rfl

theorem isTagged_hitCount (r : HeadResult) (c : Counters) :
    (isTagged r c).2.hitCount = c.hitCount := by
  cases r <;> rfl

theorem pollIter_counters (r : HeadResult) (st : SysState) :
    (pollIter r st).counters = (isTagged r st.counters).2 := by
  simp only [pollIter]
  split <;> rfl

theorem pollIter_yes (r : HeadResult) (st : SysState) :
    (pollIter r st).server.yes = (st.server.yes || probeSuccess r) := by
  simp only [pollIter, isTagged_fst]
  cases h : probeSuccess r <;> simp [h]

theorem serveHTTPStep_server (st : SysState) :
    (serveHTTPStep st).1.server = st.server := rfl

theorem applyOps_cons (op : Op) (ops : List Op) (st : SysState) :
    applyOps (op :: ops) st = applyOps ops (stepOp op st) := rfl

/-- Claim C3: a single probe call returns success exactly for a 200 OK
response; a transport failure yields `false`, stores the error message in
`pollError` and bumps `pollErrorCount`; in every case `pollCount` grows by
exactly one — the call is a single attempt, with no internal retry. -/
theorem c3_single_probe (s : Nat) (m : String) (c : Counters) :
    ((isTagged (HeadResult.ok s) c).1 = true ↔ s = statusOK) ∧
    isTagged (HeadResult.err m) c =
      (false, { c with pollCount := c.pollCount + 1, pollError := m,
                       pollErrorCount := c.pollErrorCount + 1 }) ∧
    (isTagged (HeadResult.ok s) c).2.pollCount = c.pollCount + 1 ∧
    (isTagged (HeadResult.err m) c).2.pollCount = c.pollCount + 1 := by
  refine ⟨?_, rfl, rfl, rfl⟩
  simp [isTagged]

/-- Counter frame of a run of successful (200) probes: `pollError` and
`pollErrorCount` are untouched, `pollCount` grows by the number of calls. -/
theorem probeMany_ok200_frame :
    ∀ (n : Nat) (c : Counters),
    (probeMany (List.replicate n (HeadResult.ok 200)) c).pollError = c.pollError ∧
    (probeMany (List.replicate n (HeadResult.ok 200)) c).pollErrorCount =
      c.pollErrorCount ∧
    (probeMany (List.replicate n (HeadResult.ok 200)) c).pollCount =
      c.pollCount + n := by
  intro n
  induction n with
  | zero => intro c; exact ⟨rfl, rfl, rfl⟩
  | succ n ih =>
      intro c
      have h := ih { c with pollCount := c.pollCount + 1 }
      refine ⟨h.1, h.2.1, ?_⟩
      show (probeMany (List.replicate n (HeadResult.ok 200))
        { c with pollCount := c.pollCount + 1 }).pollCount = c.pollCount + (n + 1)
      have h3 : (probeMany (List.replicate n (HeadResult.ok 200))
          { c with pollCount := c.pollCount + 1 }).pollCount =
          c.pollCount + 1 + n := h.2.2
      omega

/-- Claim C10: a successful (200) probe leaves `pollError` and
`pollErrorCount` unchanged and only increments `pollCount`; in particular
the message of an earlier transport failure persists through any number of
later successful probes. -/
theorem c10_success_preserves_error_info (c : Counters) (n : Nat) (m : String) :
    isTagged (HeadResult.ok 200) c =
      (true, { c with pollCount := c.pollCount + 1 }) ∧
    (isTagged (HeadResult.ok 200) c).2.pollError = c.pollError ∧
    (isTagged (HeadResult.ok 200) c).2.pollErrorCount = c.pollErrorCount ∧
    (probeMany (List.replicate n (HeadResult.ok 200))
        ((isTagged (HeadResult.err m) c).2)).pollError = m ∧
    (probeMany (List.replicate n (HeadResult.ok 200))
        ((isTagged (HeadResult.err m) c).2)).pollErrorCount =
      c.pollErrorCount + 1 := by
  have h := probeMany_ok200_frame n ((isTagged (HeadResult.err m) c).2)
  exact ⟨rfl, rfl, rfl, h.1, h.2.1⟩

/-- Claim C6 counterexample: a 404 response is a failed probe, but unlike a
transport error it is NOT recorded in the error diagnostics — `pollError`
and `pollErrorCount` stay at their initial values, while a transport error
sets both. So a non-OK status is not "recorded the same way". -/
theorem c6_counterexample :
    (isTagged (HeadResult.ok 404) czero).1 = false ∧
    (isTagged (HeadResult.ok 404) czero).2.pollErrorCount = 0 ∧
    (isTagged (HeadResult.ok 404) czero).2.pollError = "" ∧
    (isTagged (HeadResult.err "no route to host") czero).2.pollErrorCount = 1 ∧
    (isTagged (HeadResult.err "no route to host") czero).2.pollError =
      "no route to host" :=
  ⟨rfl, rfl, rfl, rfl, rfl⟩

/-- Claim C6 (amended): a probe receiving a non-OK status returns
`success = false` and the loop goes on to the next tick (sleep, then the
next probe), exactly as after a transport failure; but it is not recorded
in the error counter or last-error message — only `pollCount` grows. -/
theorem c6_non_ok_status (s : Nat) (c : Counters) (hs : s ≠ statusOK)
    (o : Nat → HeadResult) (srv : Server) (i fuel : Nat)
    (ho : o i = HeadResult.ok s) :
    (isTagged (HeadResult.ok s) c).1 = false ∧
    (isTagged (HeadResult.ok s) c).2 =
      { c with pollCount := c.pollCount + 1 } ∧
    poll o srv c i (fuel + 1) =
      match poll o srv { c with pollCount := c.pollCount + 1 } (i + 1) fuel with
      | none => none
      | some (s2, c2, t) =>
          some (s2, c2, Ev.probe :: Ev.sleep srv.period :: t) := by
  have hb : (s == statusOK) = false := by simp [hs]
  refine ⟨by simp [isTagged, hb], rfl, ?_⟩
  simp only [poll, ho, isTagged, hb]
  rfl

theorem c6_non_ok_status_witness :
    (isTagged (HeadResult.ok 404) czero).1 = false ∧
    (isTagged (HeadResult.ok 404) czero).2 =
      { czero with pollCount := czero.pollCount + 1 } :=
  ⟨(c6_non_ok_status 404 czero (by decide) oC6 (NewServer "v" "u" 9) 0 1 rfl).1,
   (c6_non_ok_status 404 czero (by decide) oC6 (NewServer "v" "u" 9) 0 1 rfl).2.1⟩

/-- Claim C7 counterexample: a probe that fails because of a 404 response
does not increment the error counter, so "each failed probe increments the
error counter by exactly one" is false on the code. -/
theorem c7_counterexample :
    (isTagged (HeadResult.ok 404) czero).1 = false ∧
    (isTagged (HeadResult.ok 404) czero).2.pollErrorCount =
      czero.pollErrorCount :=
  ⟨rfl, rfl⟩

theorem countersLe_refl (c : Counters) : countersLe c c :=
  ⟨Nat.le_refl _, Nat.le_refl _, Nat.le_refl _⟩

theorem countersLe_trans {a b c : Counters} (h1 : countersLe a b)
    (h2 : countersLe b c) : countersLe a c :=
  ⟨Nat.le_trans h1.1 h2.1, Nat.le_trans h1.2.1 h2.2.1, Nat.le_trans h1.2.2 h2.2.2⟩

theorem countersLe_stepOp (op : Op) (st : SysState) :
    countersLe st.counters (stepOp op st).counters := by
  cases op with
  | probe r =>
      show countersLe st.counters (pollIter r st).counters
      rw [pollIter_counters]
      cases r with
      | err m => exact ⟨Nat.le_refl _, Nat.le_succ _, Nat.le_succ _⟩
      | ok s => exact ⟨Nat.le_refl _, Nat.le_succ _, Nat.le_refl _⟩
  | serve => exact ⟨Nat.le_succ _, Nat.le_refl _, Nat.le_refl _⟩

theorem countersLe_applyOps :
    ∀ (ops : List Op) (st : SysState),
    countersLe st.counters (applyOps ops st).counters := by
  intro ops
  induction ops with
  | nil => intro st; exact countersLe_refl _
  | cons op ops ih =>
      intro st
      exact countersLe_trans (countersLe_stepOp op st) (ih (stepOp op st))

/-- Claim C7 (amended): counters are monotonically non-decreasing across
every operation and every execution; each probe call increments `pollCount`
by exactly one and leaves `hitCount` alone; each HTTP read increments
`hitCount` by exactly one and nothing else; a probe failing with a
transport error increments `pollErrorCount` by exactly one, while a probe
answered with a (possibly non-OK) status code leaves it unchanged. -/
theorem c7_counters_monotone (st : SysState) (r : HeadResult) (m : String)
    (s : Nat) (ops : List Op) :
    countersLe st.counters (stepOp Op.serve st).counters ∧
    countersLe st.counters (stepOp (Op.probe r) st).counters ∧
    countersLe st.counters (applyOps ops st).counters ∧
    (stepOp Op.serve st).counters =
      { st.counters with hitCount := st.counters.hitCount + 1 } ∧
    (stepOp (Op.probe r) st).counters.pollCount = st.counters.pollCount + 1 ∧
    (stepOp (Op.probe r) st).counters.hitCount = st.counters.hitCount ∧
    (stepOp (Op.probe (HeadResult.err m)) st).counters.pollErrorCount =
      st.counters.pollErrorCount + 1 ∧
    (stepOp (Op.probe (HeadResult.ok s)) st).counters.pollErrorCount =
      st.counters.pollErrorCount := by
  refine ⟨countersLe_stepOp Op.serve st, countersLe_stepOp (Op.probe r) st,
    countersLe_applyOps ops st, rfl, ?_, ?_, ?_, ?_⟩
  · show (pollIter r st).counters.pollCount = st.counters.pollCount + 1
    rw [pollIter_counters]
    exact isTagged_pollCount r st.counters
  · show (pollIter r st).counters.hitCount = st.counters.hitCount
    rw [pollIter_counters]
    exact isTagged_hitCount r st.counters
  · show (pollIter (HeadResult.err m) st).counters.pollErrorCount =
      st.counters.pollErrorCount + 1
    rw [pollIter_counters]
    rfl
  · show (pollIter (HeadResult.ok s) st).counters.pollErrorCount =
      st.counters.pollErrorCount
    rw [pollIter_counters]
    rfl

/-! ### Monotonicity of the confirmed state, and reads before the first
success -/

theorem yes_true_invariant :
    ∀ (ops : List Op) (st : SysState), st.server.yes = true →
    (applyOps ops st).server.yes = true ∧ ∀ b ∈ readsOf ops st, b = true := by
  intro ops
  induction ops with
  | nil =>
      intro st h
      exact ⟨h, by intro b hb; simp [readsOf] at hb⟩
  | cons op ops ih =>
      intro st h
      cases op with
      | probe r =>
          have h2 : (pollIter r st).server.yes = true := by
            rw [pollIter_yes, h]
            simp
          have hrest := ih (pollIter r st) h2
          exact ⟨hrest.1, fun b hb => hrest.2 b hb⟩
      | serve =>
          have h2 : (serveHTTPStep st).1.server.yes = true := h
          have hrest := ih (serveHTTPStep st).1 h2
          refine ⟨hrest.1, ?_⟩
          intro b hb
          rcases List.mem_cons.mp hb with hb | hb
          · rw [hb]; exact h
          · exact hrest.2 b hb

theorem yes_false_invariant :
    ∀ (ops : List Op) (st : SysState), noSuccessfulProbe ops = true →
    st.server.yes = false →
    (applyOps ops st).server.yes = false ∧ ∀ b ∈ readsOf ops st, b = false := by
  intro ops
  induction ops with
  | nil =>
      intro st _ h
      exact ⟨h, by intro b hb; simp [readsOf] at hb⟩
  | cons op ops ih =>
      intro st hno h
      simp only [noSuccessfulProbe, List.all_cons, Bool.and_eq_true] at hno
      cases op with
      | probe r =>
          have hr : probeSuccess r = false := by
            have := hno.1
            simpa using this
          have h2 : (pollIter r st).server.yes = false := by
            rw [pollIter_yes, h, hr]
            rfl
          have hrest := ih (pollIter r st) hno.2 h2
          exact ⟨hrest.1, fun b hb => hrest.2 b hb⟩
      | serve =>
          have h2 : (serveHTTPStep st).1.server.yes = false := h
          have hrest := ih (serveHTTPStep st).1 hno.2 h2
          refine ⟨hrest.1, ?_⟩
          intro b hb
          rcases List.mem_cons.mp hb with hb | hb
          · rw [hb]; exact h
          · exact hrest.2 b hb

theorem readsOf_append :
    ∀ (l1 l2 : List Op) (st : SysState),
    readsOf (l1 ++ l2) st = readsOf l1 st ++ readsOf l2 (applyOps l1 st) := by
  intro l1
  induction l1 with
  | nil => intro l2 st; rfl
  | cons op l1 ih =>
      intro l2 st
      cases op with
      | probe r => exact ih l2 (pollIter r st)
      | serve =>
          show (serveHTTPStep st).2.Yes :: readsOf (l1 ++ l2) (serveHTTPStep st).1 = _
          rw [ih l2 (serveHTTPStep st).1]
          rfl

/-- Claim C1: once `yes` has been set, it never reverts — after any further
interleaving of poll-loop iterations and HTTP reads the state still reports
confirmed, and every read performed along the way observes `true`. -/
theorem c1_confirmed_monotonic (ops : List Op) (st : SysState)
    (h : st.server.yes = true) :
    isConfirmed (applyOps ops st).server = true ∧
    ∀ b ∈ readsOf ops st, b = true :=
  yes_true_invariant ops st h

theorem c1_confirmed_monotonic_witness :
    stC1.server.yes = true ∧ isConfirmed (applyOps opsC1 stC1).server = true :=
  ⟨rfl, (c1_confirmed_monotonic opsC1 stC1 rfl).1⟩

/-- Claim C4: a freshly constructed server reports `false`, and along any
execution prefix containing no successful probe every HTTP read observes
`false` and the state still reads as unconfirmed; the reads of a longer
execution decompose so that the reads of that prefix are exactly the reads
made before the first successful probe. -/
theorem c4_reads_false_before_success (v u : String) (p : Int)
    (pre post : List Op) (h : noSuccessfulProbe pre = true) :
    (NewServer v u p).yes = false ∧
    isConfirmed (applyOps pre (initSys v u p)).server = false ∧
    (∀ b ∈ readsOf pre (initSys v u p), b = false) ∧
    readsOf (pre ++ post) (initSys v u p) =
      readsOf pre (initSys v u p) ++
        readsOf post (applyOps pre (initSys v u p)) := by
  have hinv := yes_false_invariant pre (initSys v u p) h rfl
  exact ⟨rfl, hinv.1, hinv.2, readsOf_append pre post (initSys v u p)⟩

theorem c4_reads_false_before_success_witness :
    noSuccessfulProbe opsC4pre = true ∧
    (NewServer "a" "b" 5).yes = false ∧
    isConfirmed (applyOps opsC4pre (initSys "a" "b" 5)).server = false ∧
    readsOf (opsC4pre ++ opsC4post) (initSys "a" "b" 5) =
      readsOf opsC4pre (initSys "a" "b" 5) ++
        readsOf opsC4post (applyOps opsC4pre (initSys "a" "b" 5)) :=
  ⟨rfl, rfl,
    (c4_reads_false_before_success "a" "b" 5 opsC4pre opsC4post rfl).2.1,
    (c4_reads_false_before_success "a" "b" 5 opsC4pre opsC4post rfl).2.2.2⟩

/-! ### The poll loop: termination on success, divergence on failure -/

theorem probeSeq_pollCount :
    ∀ (k : Nat) (o : Nat → HeadResult) (c : Counters) (i : Nat),
    (probeSeq o c i k).pollCount = c.pollCount + k := by
  intro k
  induction k with
  | zero => intro o c i; rfl
  | succ k ih =>
      intro o c i
      have h := ih o (isTagged (o i) c).2 (i + 1)
      show (probeSeq o (isTagged (o i) c).2 (i + 1) k).pollCount =
        c.pollCount + (k + 1)
      rw [h, isTagged_pollCount]
      omega

theorem poll_succ (o : Nat → HeadResult) (s : Server) (c : Counters)
    (i fuel : Nat) :
    poll o s c i (fuel + 1) =
      if (isTagged (o i) c).1 then
        some ({ s with yes := true }, (isTagged (o i) c).2,
          [Ev.probe, Ev.setYes, Ev.done])
      else
        match poll o s (isTagged (o i) c).2 (i + 1) fuel with
        | none => none
        | some (s2, c2, t) =>
            some (s2, c2, Ev.probe :: Ev.sleep s.period :: t) := rfl

theorem poll_succeeds_aux :
    ∀ (N : Nat) (o : Nat → HeadResult) (s : Server) (c : Counters) (i : Nat),
    (∀ j, j < N → probeSuccess (o (i + j)) = false) →
    probeSuccess (o (i + N)) = true →
    poll o s c i (N + 1) =
      some ({ s with yes := true }, probeSeq o c i (N + 1),
        expectedTrace N s.period) := by
  intro N
  induction N with
  | zero =>
      intro o s c i _ hsucc
      have hs : (isTagged (o i) c).1 = true := by
        rw [isTagged_fst]
        simpa using hsucc
      simp only [poll, probeSeq, expectedTrace]
      rw [hs]
      simp
  | succ N ih =>
      intro o s c i hfail hsucc
      have h0 : (isTagged (o i) c).1 = false := by
        rw [isTagged_fst]
        simpa using hfail 0 (Nat.succ_pos N)
      have hrec := ih o s (isTagged (o i) c).2 (i + 1)
        (fun j hj => by
          have e : i + 1 + j = i + (j + 1) := by omega
          rw [e]
          exact hfail (j + 1) (by omega))
        (by
          have e : i + 1 + N = i + (N + 1) := by omega
          rw [e]
          exact hsucc)
      rw [poll_succ, h0]
      simp only [Bool.false_eq_true, if_false]
      rw [hrec]
      rfl

theorem expectedTrace_count_probe (N : Nat) (p : Int) :
    (expectedTrace N p).count Ev.probe = N + 1 := by
  induction N with
  | zero => rfl
  | succ N ih => simp [expectedTrace, List.count_cons, ih]

theorem expectedTrace_count_sleep (N : Nat) (p : Int) :
    (expectedTrace N p).count (Ev.sleep p) = N := by
  induction N with
  | zero => rfl
  | succ N ih => simp [expectedTrace, List.count_cons, ih]

theorem expectedTrace_count_setYes (N : Nat) (p : Int) :
    (expectedTrace N p).count Ev.setYes = 1 := by
  induction N with
  | zero => rfl
  | succ N ih => simp [expectedTrace, List.count_cons, ih]

theorem expectedTrace_count_done (N : Nat) (p : Int) :
    (expectedTrace N p).count Ev.done = 1 := by
  induction N with
  | zero => rfl
  | succ N ih => simp [expectedTrace, List.count_cons, ih]

/-- Claim C2: with a prober failing on the first `N` calls and succeeding on
call `N+1`, the loop finishes within `N+1` iterations, producing exactly the
trace `probe, sleep period, probe, …, probe, setYes, pollDone` — `N+1` probe
invocations, `N` sleeps all of the configured period, the `yes` write and
exactly one completion-hook call — and the final state is confirmed with the
attempt counter grown by `N+1`. -/
theorem c2_fail_n_then_succeed (o : Nat → HeadResult) (s : Server)
    (c : Counters) (N : Nat)
    (hfail : ∀ j, j < N → probeSuccess (o j) = false)
    (hsucc : probeSuccess (o N) = true) :
    poll o s c 0 (N + 1) =
      some ({ s with yes := true }, probeSeq o c 0 (N + 1),
        expectedTrace N s.period) ∧
    (probeSeq o c 0 (N + 1)).pollCount = c.pollCount + (N + 1) ∧
    (expectedTrace N s.period).count Ev.probe = N + 1 ∧
    (expectedTrace N s.period).count (Ev.sleep s.period) = N ∧
    (expectedTrace N s.period).count Ev.setYes = 1 ∧
    (expectedTrace N s.period).count Ev.done = 1 := by
  refine ⟨?_, probeSeq_pollCount (N + 1) o c 0,
    expectedTrace_count_probe N s.period, expectedTrace_count_sleep N s.period,
    expectedTrace_count_setYes N s.period, expectedTrace_count_done N s.period⟩
  exact poll_succeeds_aux N o s c 0 (by simpa using hfail) (by simpa using hsucc)

theorem c2_fail_n_then_succeed_witness :
    poll oC2 sC2 czero 0 (2 + 1) =
      some ({ sC2 with yes := true }, probeSeq oC2 czero 0 (2 + 1),
        expectedTrace 2 sC2.period) ∧
    (probeSeq oC2 czero 0 (2 + 1)).pollCount = czero.pollCount + (2 + 1) ∧
    (expectedTrace 2 sC2.period).count Ev.probe = 2 + 1 ∧
    (expectedTrace 2 sC2.period).count (Ev.sleep sC2.period) = 2 ∧
    (expectedTrace 2 sC2.period).count Ev.setYes = 1 ∧
    (expectedTrace 2 sC2.period).count Ev.done = 1 :=
  c2_fail_n_then_succeed oC2 sC2 czero 2 (by decide) (by decide)

theorem poll_none_aux (o : Nat → HeadResult)
    (h : ∀ i, ∃ m, o i = HeadResult.err m) :
    ∀ (fuel : Nat) (s : Server) (c : Counters) (i : Nat),
    poll o s c i fuel = none := by
  intro fuel
  induction fuel with
  | zero => intro s c i; rfl
  | succ fuel ih =>
      intro s c i
      obtain ⟨m, hm⟩ := h i
      have h0 : (isTagged (o i) c).1 = false := by
        rw [isTagged_fst, hm]
        rfl
      simp only [poll]
      rw [h0, ih s (isTagged (o i) c).2 (i + 1)]
      rfl

theorem pollSteps_fail_aux (o : Nat → HeadResult)
    (h : ∀ i, ∃ m, o i = HeadResult.err m) :
    ∀ (k : Nat) (st : SysState) (i : Nat), st.server.yes = false →
    (pollStepsFrom o st i k).server.yes = false ∧
    (pollStepsFrom o st i k).counters.pollErrorCount =
      st.counters.pollErrorCount + k ∧
    (pollStepsFrom o st i k).counters.pollCount = st.counters.pollCount + k := by
  intro k
  induction k with
  | zero => intro st i hy; exact ⟨hy, rfl, rfl⟩
  | succ k ih =>
      intro st i hy
      obtain ⟨m, hm⟩ := h i
      have hy2 : (pollIter (o i) st).server.yes = false := by
        rw [pollIter_yes, hy, hm]
        rfl
      have hc : (pollIter (o i) st).counters = (isTagged (o i) st.counters).2 :=
        pollIter_counters (o i) st
      have hrest := ih (pollIter (o i) st) (i + 1) hy2
      refine ⟨hrest.1, ?_, ?_⟩
      · show (pollStepsFrom o (pollIter (o i) st) (i + 1) k).counters.pollErrorCount =
          st.counters.pollErrorCount + (k + 1)
        rw [hrest.2.1, hc, hm]
        show st.counters.pollErrorCount + 1 + k =
          st.counters.pollErrorCount + (k + 1)
        omega
      · show (pollStepsFrom o (pollIter (o i) st) (i + 1) k).counters.pollCount =
          st.counters.pollCount + (k + 1)
        rw [hrest.2.2, hc, isTagged_pollCount]
        omega

/-- Claim C5: if every HEAD call fails with a transport error, the loop
never finishes (no fuel bound suffices), the state never becomes confirmed,
each attempt bumps both `pollCount` and `pollErrorCount` by one, and an HTTP
read after any number of iterations still renders `Yes = false` — the
failures are never surfaced to readers. -/
theorem c5_all_failures (o : Nat → HeadResult)
    (h : ∀ i, ∃ m, o i = HeadResult.err m) :
    (∀ (s : Server) (c : Counters) (i fuel : Nat), poll o s c i fuel = none) ∧
    (∀ (st : SysState) (i k : Nat), st.server.yes = false →
      isConfirmed (pollStepsFrom o st i k).server = false ∧
      (pollStepsFrom o st i k).counters.pollErrorCount =
        st.counters.pollErrorCount + k ∧
      (pollStepsFrom o st i k).counters.pollCount =
        st.counters.pollCount + k ∧
      (serveHTTPStep (pollStepsFrom o st i k)).2.Yes = false) := by
  refine ⟨fun s c i fuel => poll_none_aux o h fuel s c i, ?_⟩
  intro st i k hy
  have haux := pollSteps_fail_aux o h k st i hy
  exact ⟨haux.1, haux.2.1, haux.2.2, haux.1⟩

theorem c5_all_failures_witness :
    poll oC5 (NewServer "v" "u" 5) czero 0 7 = none ∧
    isConfirmed (pollStepsFrom oC5 (initSys "v" "u" 5) 0 3).server = false ∧
    (pollStepsFrom oC5 (initSys "v" "u" 5) 0 3).counters.pollErrorCount =
      0 + 3 ∧
    (pollStepsFrom oC5 (initSys "v" "u" 5) 0 3).counters.pollCount = 0 + 3 :=
  ⟨(c5_all_failures oC5 (fun _ => ⟨"connection refused", rfl⟩)).1
      (NewServer "v" "u" 5) czero 0 7,
   ((c5_all_failures oC5 (fun _ => ⟨"connection refused", rfl⟩)).2
      (initSys "v" "u" 5) 0 3 rfl).1,
   ((c5_all_failures oC5 (fun _ => ⟨"connection refused", rfl⟩)).2
      (initSys "v" "u" 5) 0 3 rfl).2.1,
   ((c5_all_failures oC5 (fun _ => ⟨"connection refused", rfl⟩)).2
      (initSys "v" "u" 5) 0 3 rfl).2.2.1⟩

/-! ### Sleep durations: the raw period is used, with no clamping -/

/-- Claim C8 counterexample: with a configured period of 0, the duration
passed to `pollSleep` is 0 — not clamped to any nonzero minimum. (Go's
`time.Sleep` returns immediately for a non-positive duration, so this loop
busy-polls.) -/
theorem c8_counterexample :
    sC8.period = 0 ∧
    poll oC8 sC8 czero 0 2 =
      some ({ sC8 with yes := true }, ⟨0, 2, "refused", 1⟩,
        [Ev.probe, Ev.sleep 0, Ev.probe, Ev.setYes, Ev.done]) ∧
    Ev.sleep 0 ∈ [Ev.probe, Ev.sleep 0, Ev.probe, Ev.setYes, Ev.done] := by
  refine ⟨rfl, rfl, ?_⟩
  simp

/-- Claim C8 (amended): `poll` performs no clamping at all — every sleep in
any run has exactly the configured period (`s.period`, the raw value handed
to `time.Sleep`) as its duration, whatever that value is, zero and negative
included. -/
theorem c8_sleep_is_raw_period :
    ∀ (fuel : Nat) (o : Nat → HeadResult) (s : Server) (c : Counters)
      (i : Nat) (s2 : Server) (c2 : Counters) (t : List Ev),
    poll o s c i fuel = some (s2, c2, t) →
    ∀ d, Ev.sleep d ∈ t → d = s.period := by
  intro fuel
  induction fuel with
  | zero =>
      intro o s c i s2 c2 t h
      simp [poll] at h
  | succ fuel ih =>
      intro o s c i s2 c2 t h d hd
      rw [poll_succ] at h
      by_cases hc : (isTagged (o i) c).1 = true
      · rw [if_pos hc] at h
        simp only [Option.some.injEq, Prod.mk.injEq] at h
        obtain ⟨-, -, ht⟩ := h
        rw [← ht] at hd
        simp at hd
      · rw [if_neg hc] at h
        cases hrec : poll o s (isTagged (o i) c).2 (i + 1) fuel with
        | none => rw [hrec] at h; exact absurd h (by simp)
        | some v =>
            obtain ⟨s3, c3, t3⟩ := v
            rw [hrec] at h
            simp only [Option.some.injEq, Prod.mk.injEq] at h
            obtain ⟨hs3, hc3, ht3⟩ := h
            rw [← ht3] at hd
            rcases List.mem_cons.mp hd with h1 | h1
            · cases h1
            · rcases List.mem_cons.mp h1 with h2 | h2
              · simpa using h2
              · exact ih o s (isTagged (o i) c).2 (i + 1) s3 c3 t3 hrec d h2

theorem c8_sleep_is_raw_period_witness :
    poll oC8w sC8w czero 0 2 =
      some ({ sC8w with yes := true }, ⟨0, 2, "x", 1⟩,
        [Ev.probe, Ev.sleep 7, Ev.probe, Ev.setYes, Ev.done]) ∧
    Ev.sleep 7 ∈ [Ev.probe, Ev.sleep 7, Ev.probe, Ev.setYes, Ev.done] ∧
    (7 : Int) = sC8w.period :=
  ⟨rfl, by simp,
    c8_sleep_is_raw_period 2 oC8w sC8w czero 0 { sC8w with yes := true }
      ⟨0, 2, "x", 1⟩ [Ev.probe, Ev.sleep 7, Ev.probe, Ev.setYes, Ev.done]
      rfl 7 (by simp)⟩

/-! ### `main`: the CLI iphost value is discarded -/

theorem foldl_lastSome :
    ∀ (l : List (Option String)) (init : Option String),
    l.foldl
        (fun acc a =>
          match a with
          | some ip => some ip
          | none => acc)
        init =
      match lastSome l with
      | some x => some x
      | none => init := by
  intro l
  induction l with
  | nil => intro init; rfl
  | cons a l ih =>
      intro init
      rw [List.foldl_cons, ih]
      cases hl : lastSome l with
      | some x => simp [lastSome, hl]
      | none => cases a <;> simp [lastSome, hl]

/-- Claim C9: the server `main` builds does not depend on the parsed
`-iphost` CLI value at all; its version string is the detected IP — the
last address kept by the interface-enumeration loop (`"<nil>"` if none was
found) — and the change URL is `baseChangeURL ++ "go" ++` that same string.
Only the poll period still comes from the command line. -/
theorem c9_iphost_discarded (a b : String)
    (ifaces : List (List (Option String))) (p : Int) :
    mainServer a ifaces p = mainServer b ifaces p ∧
    mainIpcheck ifaces = lastSome ifaces.flatten ∧
    (mainServer a ifaces p).version = (mainIpcheck ifaces).getD "<nil>" ∧
    (mainServer a ifaces p).url =
      baseChangeURL ++ "go" ++ (mainIpcheck ifaces).getD "<nil>" ∧
    (mainServer a ifaces p).period = p := by
  refine ⟨rfl, ?_, rfl, rfl, rfl⟩
  show (ifaces.flatten).foldl _ none = _
  rw [foldl_lastSome]
  cases lastSome ifaces.flatten <;> rfl

end Outyet
